import Mathlib

/-!
Shallow embedding of the LLM message-normalization and dispatch core of
`src-tauri/crates/llmapi` (Rust), together with theorems checking the
specification's claims about it.

Modelling conventions:
* Rust `String`/`&str` values are modelled as `List Char` (`Str` below),
  so that trimming/lowercasing proofs can proceed by list induction.
  A Lean string literal `"user".data` denotes the corresponding `Str`.
* Network and filesystem effects are factored out: each adapter's pure
  request-construction and response-parsing logic is embedded directly,
  and the outcome of the HTTP + JSON-decode stage is passed in as an
  `Except Str _` value (the error string standing for the formatted
  `anyhow` error description).
* `f32` embedding-vector components are never inspected by the code
  (they are only carried through), so they are modelled as `Int`.
* `mime_guess::from_path(..).first_raw()` is an external collaborator
  crate; it is modelled as a parameter `mimeGuess : Str → Option Str`.
* The wire JSON bodies built with `serde_json::json!` are modelled by
  per-provider wire ASTs that mirror exactly the object shapes the code
  constructs.
-/

/-- Rust `&str` modelled as a list of characters. -/
abbrev Str := List Char

/-- ASCII lowercasing of one character, as performed by Rust's
`str::to_lowercase` on ASCII input (the only inputs that can reach the
role synonym table, whose entries are all ASCII). -/
def rustCharToLower (c : Char) : Char :=
  if 65 ≤ c.toNat ∧ c.toNat ≤ 90 then Char.ofNat (c.toNat + 32) else c

/-- Rust `str::to_lowercase` (restricted to the ASCII fragment relevant
to the role table). -/
def rustToLower (s : Str) : Str := s.map rustCharToLower

/-- Rust `char::is_whitespace` (the Unicode White_Space code points). -/
def isRustWhitespace (c : Char) : Bool :=
  c.toNat ∈ [9, 10, 11, 12, 13, 32, 133, 160, 5760,
              8192, 8193, 8194, 8195, 8196, 8197, 8198, 8199, 8200,
              8201, 8202, 8232, 8233, 8239, 8287, 12288]

/-- Rust `str::trim`: remove leading and trailing whitespace. -/
def rustTrim (s : Str) : Str :=
  ((s.dropWhile isRustWhitespace).reverse.dropWhile isRustWhitespace).reverse

/-- Rust `str::trim_end_matches('/')`: repeatedly strip trailing `'/'`. -/
def rustTrimEndSlashes (s : Str) : Str :=
  (s.reverse.dropWhile (fun c => c == '/')).reverse

/-- Rust `str::trim_start_matches pat`: repeatedly strip the prefix `pat`. -/
def rustTrimStartMatches (s pat : Str) : Str :=
  if h : pat ≠ [] ∧ pat.isPrefixOf s then
    rustTrimStartMatches (s.drop pat.length) pat
  else s
termination_by s.length
decreasing_by
  have hp : pat ≠ [] := h.1
  have hle : pat.length ≤ s.length := List.IsPrefix.length_le (List.isPrefixOf_iff_prefix.mp h.2)
  have hpos : 0 < pat.length := List.length_pos.mpr hp
  simp [List.length_drop]
  omega

/-- `LLMUserType` (`types.rs`): the canonical message roles. -/
inductive LLMUserType
  | Human
  | AI
  | System
deriving DecidableEq, Repr

/-- `LLMUserType::from_str` (`types.rs`): case-insensitive synonym table
over the trimmed, lowercased role string. -/
def LLMUserType.from_str (role_str : Str) : Option LLMUserType :=
  let k := rustToLower (rustTrim role_str)
  if k = "user".data ∨ k = "human".data then some LLMUserType.Human
  else if k = "model".data ∨ k = "ai".data ∨ k = "assistant".data then some LLMUserType.AI
  else if k = "system".data then some LLMUserType.System
  else none

/-- `LLMMessageType` (`types.rs`): one content part, text or inline image. -/
inductive LLMMessageType
  | TEXT (text : Str)
  | IMAGE (data_b64 : Str) (file_path : Option Str)
deriving DecidableEq, Repr

/-- `LLMMessageType::text`. -/
def LLMMessageType.textPart (t : Str) : LLMMessageType := LLMMessageType.TEXT t

/-- `LLMMessageType::image_b64`: inline image with no source path. -/
def LLMMessageType.image_b64 (d : Str) : LLMMessageType := LLMMessageType.IMAGE d none

/-- `LLMMessage` (`types.rs`). -/
structure LLMMessage where
  id : Str
  role : LLMUserType
  content : List LLMMessageType
  created_at : Int
deriving DecidableEq, Repr

/-- `LLMMessage::new` (`types.rs`). `now` stands for the value of
`utils::current_timestamp_millis()` at call time (an environment input).
An absent id is replaced by the decimal rendering of `now`; the role
string is resolved through the synonym table, defaulting to `Human`. -/
def LLMMessage.new (now : Nat) (id : Option Str) (role : Str)
    (content : List LLMMessageType) : LLMMessage :=
  { id := id.getD (Nat.repr now).data
    role := (LLMUserType.from_str role).getD LLMUserType.Human
    content := content
    created_at := (now : Int) }

/-- `LLMProvider` (`types.rs`). -/
inductive LLMProvider
  | OpenAI
  | Anthropic
  | Gemini
deriving DecidableEq, Repr

/-- `utils::detect_mime_type`, parameterized by the external
`mime_guess` collaborator: `mime_guess::from_path(p).first_raw()`
modelled as `mimeGuess p`, with the source's `"image/jpeg"` default. -/
def detect_mime_type (mimeGuess : Str → Option Str) (p : Str) : Str :=
  (mimeGuess p).getD "image/jpeg".data

/-! ## OpenAI adapter (`providers/openai/api.rs`) -/

/-- Wire content part emitted by `convert_message` for the OpenAI
request body: `{"type":"text","text":t}` or
`{"type":"input_image","image_url":{"url":u}}`. -/
inductive OpenAIWirePart
  | text (t : Str)
  | image (url : Str)
deriving DecidableEq, Repr

/-- Content field of one OpenAI wire message: either a bare JSON string
or an array of content parts. -/
inductive OpenAIWireContent
  | str (s : Str)
  | parts (items : List OpenAIWirePart)
deriving DecidableEq, Repr

/-- One element of the OpenAI `messages` array: `{"role":r,"content":c}`. -/
structure OpenAIWireMessage where
  role : Str
  content : OpenAIWireContent
deriving DecidableEq, Repr

/-- Role mapping used in `convert_message`. -/
def openaiRoleStr : LLMUserType → Str
  | LLMUserType.Human => "user".data
  | LLMUserType.AI => "assistant".data
  | LLMUserType.System => "system".data

/-- State of the part-collection loop in `convert_message`:
`content_items`, `text_segments`, `only_text`. -/
structure OpenAIConvState where
  content_items : List OpenAIWirePart
  text_segments : List Str
  only_text : Bool

/-- One iteration of the `for part in message.content` loop of
`convert_message`. -/
def openaiConvStep (mimeGuess : Str → Option Str)
    (acc : OpenAIConvState) (part : LLMMessageType) : OpenAIConvState :=
  match part with
  | LLMMessageType.TEXT text =>
      { acc with
        content_items := acc.content_items ++ [OpenAIWirePart.text text]
        text_segments := acc.text_segments ++ [text] }
  | LLMMessageType.IMAGE data_b64 file_path =>
      let mime := (file_path.map (detect_mime_type mimeGuess)).getD "image/png".data
      let data_url := "data:".data ++ mime ++ ";base64,".data ++ data_b64
      { acc with
        content_items := acc.content_items ++ [OpenAIWirePart.image data_url]
        only_text := false }

/-- `convert_message` (`openai/api.rs`): one canonical message to one
OpenAI wire message. All-text content joins segments with `"\n"` into a
bare string; content with an image becomes a part array; empty content
becomes the empty string. -/
def convert_message (mimeGuess : Str → Option Str) (message : LLMMessage) :
    OpenAIWireMessage :=
  let role := openaiRoleStr message.role
  let r := message.content.foldl (openaiConvStep mimeGuess)
    { content_items := [], text_segments := [], only_text := true }
  if r.content_items = [] then
    { role := role, content := OpenAIWireContent.str [] }
  else if r.only_text then
    { role := role, content := OpenAIWireContent.str (List.intercalate "\n".data r.text_segments) }
  else
    { role := role, content := OpenAIWireContent.parts r.content_items }

/-- `convert_messages_to_openai` (`openai/api.rs`). -/
def convert_messages_to_openai (mimeGuess : Str → Option Str)
    (messages : List LLMMessage) : List OpenAIWireMessage :=
  messages.map (convert_message mimeGuess)

/-- `ChatContentImageUrl` (`openai/models.rs`). -/
structure ChatContentImageUrl where
  url : Str
deriving DecidableEq, Repr

/-- `ChatContentPart` (`openai/models.rs`): one deserialized response
content part. -/
structure ChatContentPart where
  kind : Str
  text : Option Str
  image_url : Option ChatContentImageUrl
  image_base64 : Option Str
deriving DecidableEq, Repr

/-- `ChatContent` (`openai/models.rs`): untagged string-or-parts. -/
inductive ChatContent
  | strContent (s : Str)
  | partsContent (ps : List ChatContentPart)
deriving DecidableEq, Repr

/-- `ChatMessage` (`openai/models.rs`). -/
structure ChatMessage where
  role : Option Str
  content : Option ChatContent
deriving DecidableEq, Repr

/-- `ChatChoice` (`openai/models.rs`). -/
structure ChatChoice where
  message : ChatMessage
deriving DecidableEq, Repr

/-- `ChatCompletionResponse` (`openai/models.rs`). -/
structure ChatCompletionResponse where
  id : Option Str
  choices : List ChatChoice
deriving DecidableEq, Repr

/-- `extract_data_url_base64` (`openai/api.rs`): everything after the
first `','` of the URL, or `none` when there is no comma. -/
def extract_data_url_base64 : Str → Option Str
  | [] => none
  | c :: rest => if c = ',' then some rest else extract_data_url_base64 rest

/-- One iteration of the `for part in parts` loop of
`convert_openai_parts`. -/
def openaiPartStep (results : List LLMMessageType) (part : ChatContentPart) :
    List LLMMessageType :=
  if part.kind = "text".data ∨ part.kind = "output_text".data then
    match part.text with
    | some text => results ++ [LLMMessageType.TEXT text]
    | none => results
  else if part.kind = "output_image".data ∨ part.kind = "input_image".data then
    match part.image_base64 with
    | some image_base64 => results ++ [LLMMessageType.image_b64 image_base64]
    | none =>
      match part.image_url with
      | some image_url =>
        match extract_data_url_base64 image_url.url with
        | some data_b64 => results ++ [LLMMessageType.image_b64 data_b64]
        | none => results ++ [LLMMessageType.TEXT image_url.url]
      | none => results
  else
    -- Preserve unsupported content as text for visibility.
    let fallback := (part.text.or part.image_base64).getD
      ("Unsupported OpenAI content type: ".data ++ part.kind)
    results ++ [LLMMessageType.TEXT fallback]

/-- `convert_openai_parts` (`openai/api.rs`): response part array to
canonical content parts. -/
def convert_openai_parts (parts : List ChatContentPart) : List LLMMessageType :=
  parts.foldl openaiPartStep []

/-- `convert_openai_response` (`openai/api.rs`): first choice only; a
choiceless response is the `anyhow!` error; empty parsed content is
replaced by one empty text part. -/
def convert_openai_response (now : Nat) (response : ChatCompletionResponse) :
    Except Str LLMMessage :=
  match response.choices with
  | [] => Except.error "No choices returned from OpenAI".data
  | first_choice :: _ =>
    let role := first_choice.message.role.getD "assistant".data
    let contents :=
      match first_choice.message.content with
      | some (ChatContent.strContent text) => [LLMMessageType.TEXT text]
      | some (ChatContent.partsContent parts) => convert_openai_parts parts
      | none => []
    let contents := if contents = [] then contents ++ [LLMMessageType.TEXT []] else contents
    Except.ok (LLMMessage.new now response.id role contents)

/-- `send_chat_completion` (`openai/api.rs`) after the network stage:
`httpOutcome` is the combined outcome of request transmission,
`error_for_status`, body read and JSON decode (`Except.error e` carries
the formatted error description `e`). -/
def send_chat_completion_result (now : Nat)
    (httpOutcome : Except Str ChatCompletionResponse) : Except Str LLMMessage :=
  httpOutcome.bind (convert_openai_response now)

/-- The wrapped OpenAI `chat` closure (`openai/api.rs`): on any failure
it synthesizes a System message `"OpenAI error: {err}"`. -/
def openai_chat_result (now : Nat)
    (httpOutcome : Except Str ChatCompletionResponse) : LLMMessage :=
  match send_chat_completion_result now httpOutcome with
  | Except.ok message => message
  | Except.error err =>
      LLMMessage.new now none "System".data
        [LLMMessageType.textPart ("OpenAI error: ".data ++ err)]

/-! ## Anthropic adapter (`providers/anthropic/api.rs`) -/

/-- Wire content part emitted for the Anthropic request body:
`{"type":"text","text":t}` or
`{"type":"image","source":{"type":"base64","media_type":m,"data":d}}`. -/
inductive AnthropicWirePart
  | text (t : Str)
  | image (media_type : Str) (data : Str)
deriving DecidableEq, Repr

/-- One element of the Anthropic `messages` array. -/
structure AnthropicWireMessage where
  role : Str
  content : List AnthropicWirePart
deriving DecidableEq, Repr

/-- `extract_text_from_message_content` (`anthropic/api.rs`): texts of
all `TEXT` parts joined with `"\n"`. -/
def extract_text_from_message_content (content : List LLMMessageType) : Str :=
  List.intercalate "\n".data
    (content.foldl (fun texts item =>
      match item with
      | LLMMessageType.TEXT text => texts ++ [text]
      | LLMMessageType.IMAGE _ _ => texts) [])

/-- `convert_message_content_to_anthropic` (`anthropic/api.rs`): always
a part array; an empty part list is replaced by one empty text part. -/
def convert_message_content_to_anthropic (mimeGuess : Str → Option Str)
    (content : List LLMMessageType) : List AnthropicWirePart :=
  let parts := content.foldl (fun parts item =>
    match item with
    | LLMMessageType.TEXT text => parts ++ [AnthropicWirePart.text text]
    | LLMMessageType.IMAGE data_b64 file_path =>
        let mime := (file_path.map (detect_mime_type mimeGuess)).getD "image/png".data
        parts ++ [AnthropicWirePart.image mime data_b64]) []
  if parts = [] then parts ++ [AnthropicWirePart.text []] else parts

/-- State of the message loop in `convert_messages_to_anthropic`:
`system_segments` and `converted`. -/
structure AnthropicConvState where
  system_segments : List Str
  converted : List AnthropicWireMessage

/-- One iteration of the `for message in messages` loop of
`convert_messages_to_anthropic`. -/
def anthropicConvStep (mimeGuess : Str → Option Str)
    (acc : AnthropicConvState) (message : LLMMessage) : AnthropicConvState :=
  match message.role with
  | LLMUserType.System =>
      let text := extract_text_from_message_content message.content
      if text = [] then acc
      else { acc with system_segments := acc.system_segments ++ [text] }
  | role =>
      let role_str :=
        match role with
        | LLMUserType.Human => "user".data
        | _ => "assistant".data  -- `System` is unreachable here
      { acc with converted := acc.converted ++
          [{ role := role_str
             content := convert_message_content_to_anthropic mimeGuess message.content }] }

/-- `convert_messages_to_anthropic` (`anthropic/api.rs`): System turns
are removed and their texts joined with `"\n"` into the side-channel
`system` value; other turns are converted in order. -/
def convert_messages_to_anthropic (mimeGuess : Str → Option Str)
    (messages : List LLMMessage) : List AnthropicWireMessage × Option Str :=
  let acc := messages.foldl (anthropicConvStep mimeGuess)
    { system_segments := [], converted := [] }
  let system_prompt :=
    if acc.system_segments = [] then none
    else some (List.intercalate "\n".data acc.system_segments)
  (acc.converted, system_prompt)

/-- `AnthropicImageSource` (`anthropic/models.rs`). -/
structure AnthropicImageSource where
  data : Option Str
deriving DecidableEq, Repr

/-- `AnthropicContent` (`anthropic/models.rs`). The `extra` field is a
`serde_json::Value` defaulting to `Null`; it is modelled by `none` for
`Null` and `some s` for any other value with serialized text `s`. -/
structure AnthropicContent where
  kind : Str
  text : Option Str
  source : Option AnthropicImageSource
  extra : Option Str
deriving DecidableEq, Repr

/-- `AnthropicResponse` (`anthropic/models.rs`). -/
structure AnthropicResponse where
  id : Option Str
  role : Option Str
  content : List AnthropicContent
deriving DecidableEq, Repr

/-- One iteration of the `for part in parts` loop of
`convert_anthropic_parts`. -/
def anthropicPartStep (result : List LLMMessageType) (part : AnthropicContent) :
    List LLMMessageType :=
  if part.kind = "text".data then
    match part.text with
    | some text => result ++ [LLMMessageType.TEXT text]
    | none => result
  else if part.kind = "image".data then
    match part.source with
    | some source =>
      match source.data with
      | some data => result ++ [LLMMessageType.image_b64 data]
      | none => result
    | none => result
  else
    let fallback :=
      match part.extra with
      | some serialized => serialized
      | none => "Unsupported Anthropic content type: ".data ++ part.kind
    result ++ [LLMMessageType.TEXT fallback]

/-- `convert_anthropic_parts` (`anthropic/api.rs`). -/
def convert_anthropic_parts (parts : List AnthropicContent) : List LLMMessageType :=
  parts.foldl anthropicPartStep []

/-- `convert_anthropic_response` (`anthropic/api.rs`): empty parsed
content is replaced by one empty text part. -/
def convert_anthropic_response (now : Nat) (response : AnthropicResponse) :
    Except Str LLMMessage :=
  let role := response.role.getD "assistant".data
  let contents := convert_anthropic_parts response.content
  let contents := if contents = [] then contents ++ [LLMMessageType.TEXT []] else contents
  Except.ok (LLMMessage.new now response.id role contents)

/-- `send_message` (`anthropic/api.rs`) after the network stage. -/
def send_message_result (now : Nat)
    (httpOutcome : Except Str AnthropicResponse) : Except Str LLMMessage :=
  httpOutcome.bind (convert_anthropic_response now)

/-- The wrapped Anthropic `chat` closure (`anthropic/api.rs`): on any
failure it synthesizes a System message `"Anthropic error: {err}"`. -/
def anthropic_chat_result (now : Nat)
    (httpOutcome : Except Str AnthropicResponse) : LLMMessage :=
  match send_message_result now httpOutcome with
  | Except.ok message => message
  | Except.error err =>
      LLMMessage.new now none "System".data
        [LLMMessageType.textPart ("Anthropic error: ".data ++ err)]

/-! ## Gemini adapter (`providers/gemini/api.rs`, `providers/gemini/mod.rs`) -/

/-- Wire part emitted by `convert_body_parts_gemini`:
`{"text":t}` or `{"inlineData":{"mimeType":m,"data":d}}`. -/
inductive GeminiWirePart
  | text (t : Str)
  | inline (mimeType : Str) (data : Str)
deriving DecidableEq, Repr

/-- One element of the Gemini `contents` array: `{"role":r,"parts":ps}`. -/
structure GeminiWireMessage where
  role : Str
  parts : List GeminiWirePart
deriving DecidableEq, Repr

/-- `convert_body_parts_gemini` (`gemini/api.rs`). Note: a plain map
with no empty-content fallback. -/
def convert_body_parts_gemini (mimeGuess : Str → Option Str)
    (body_part : List LLMMessageType) : List GeminiWirePart :=
  body_part.map (fun part =>
    match part with
    | LLMMessageType.TEXT text => GeminiWirePart.text text
    | LLMMessageType.IMAGE data_b64 file_path =>
        let mime := (file_path.map (detect_mime_type mimeGuess)).getD "image/jpeg".data
        GeminiWirePart.inline mime data_b64)

/-- `role_to_str` (`gemini/api.rs`). -/
def role_to_str : LLMUserType → Str
  | LLMUserType.Human => "user".data
  | LLMUserType.AI => "model".data
  | LLMUserType.System => "system".data

/-- `convert_messages_to_gemini_contents` (`gemini/api.rs`). -/
def convert_messages_to_gemini_contents (mimeGuess : Str → Option Str)
    (messages : List LLMMessage) : List GeminiWireMessage :=
  messages.map (fun m =>
    { role := role_to_str m.role
      parts := convert_body_parts_gemini mimeGuess m.content })

/-- `InlineData` (`gemini/models.rs`). -/
structure InlineData where
  mime_type : Str
  data : Str
deriving DecidableEq, Repr

/-- `Part` (`gemini/models.rs`): one response content part. -/
structure GeminiPart where
  text : Option Str
  inline_data : Option InlineData
deriving DecidableEq, Repr

/-- `Content` (`gemini/models.rs`). -/
structure GeminiContent where
  parts : List GeminiPart
  role : Option Str
deriving DecidableEq, Repr

/-- `Candidate` (`gemini/models.rs`); `finish_reason` and `index` are
never read by the embedded logic. -/
structure Candidate where
  content : GeminiContent
  finish_reason : Option Str
  index : Option Nat
deriving DecidableEq, Repr

/-- `GeminiResponse` (`gemini/models.rs`); `usage_metadata` and
`model_version` are never read by the embedded logic and are elided. -/
structure GeminiResponse where
  candidates : List Candidate
  response_id : Option Str
deriving DecidableEq, Repr

/-- `response_to_base64_images` (`gemini/api.rs`): over ALL candidates,
each part's inline data (or `""` when absent), keeping the non-empty
ones, flattened in order. -/
def response_to_base64_images (response : GeminiResponse) : List Str :=
  (response.candidates.map (fun candidate =>
    (candidate.content.parts.map (fun part =>
      match part.inline_data with
      | some inline_data => inline_data.data
      | none => [])).filter (fun data => !data.isEmpty))).flatten

/-- `response_to_text_data` (`gemini/api.rs`): concatenated text of the
FIRST candidate's parts; no candidate at all is the `anyhow!` error. -/
def response_to_text_data (response : GeminiResponse) : Except Str Str :=
  match response.candidates with
  | candidate :: _ =>
      Except.ok (candidate.content.parts.foldl (fun full_text part =>
        match part.text with
        | some text => full_text ++ text
        | none => full_text) [])
  | [] => Except.error "No candidates found".data

/-- The wrapped Gemini `chat` closure (`gemini/mod.rs`): on a network /
status / decode failure of `send_generate_request` it synthesizes the
fixed System message; on success it builds images (all inline data)
followed by one text part, with the `response_to_text_data` error
swallowed by `unwrap_or("")`, as an AI message. -/
def gemini_chat_result (now : Nat)
    (httpOutcome : Except Str GeminiResponse) : LLMMessage :=
  match httpOutcome with
  | Except.ok response =>
      let images := response_to_base64_images response
      let data_response := images.map (fun image => LLMMessageType.image_b64 image)
      let data_response := data_response ++
        [LLMMessageType.textPart ((response_to_text_data response).toOption.getD [])]
      LLMMessage.new now response.response_id "AI".data data_response
  | Except.error _ =>
      LLMMessage.new now none "System".data
        [LLMMessageType.textPart "Failed to get response from Gemini".data]

/-! ### Gemini embeddings (`gemini/api.rs`) -/

/-- `Embedding` (`gemini/models.rs`); the `f32` components are carried
through untouched and are modelled as `Int`. -/
structure GeminiEmbedding where
  values : List Int
deriving DecidableEq, Repr

/-- `GeminiEmbedResponse` (`gemini/models.rs`); unread metadata fields
elided. -/
structure GeminiEmbedResponse where
  embedding : Option GeminiEmbedding
deriving DecidableEq, Repr

/-- `GeminiBatchEmbedResponse` (`gemini/models.rs`); unread metadata
fields elided. -/
structure GeminiBatchEmbedResponse where
  embeddings : Option (List GeminiEmbedding)
deriving DecidableEq, Repr

/-- The request body built by `build_embed_content` /
`build_batch_embed_contents`: either one `(model, text)` pair or the
list of per-request `(model, text)` pairs. -/
inductive GeminiEmbedBody
  | single (model : Str) (text : Str)
  | batch (requests : List (Str × Str))
deriving DecidableEq, Repr

/-- The `request_model` normalization in `gemini_embed_texts`: prepend
`"models/"` when absent, keep the id unchanged when present. -/
def gemini_request_model (model_id : Str) : Str :=
  if "models/".data.isPrefixOf model_id then model_id
  else "models/".data ++ model_id

/-- The `path_model` used in the URL: `trim_start_matches("models/")`. -/
def gemini_path_model (model_id : Str) : Str :=
  rustTrimStartMatches model_id "models/".data

/-- Request construction of `gemini_embed_texts` (`gemini/api.rs`):
the URL and body that would be sent for the given endpoint, model id
and input texts. A single text goes to `:embedContent`, anything else
(including the empty list) to `:batchEmbedContents`. -/
def gemini_embed_request (api_endpoint model_id : Str) (texts : List Str) :
    Str × GeminiEmbedBody :=
  let endpoint := rustTrimEndSlashes api_endpoint
  let path_model := gemini_path_model model_id
  let request_model := gemini_request_model model_id
  if texts.length = 1 then
    (endpoint ++ "/".data ++ path_model ++ ":embedContent".data,
     GeminiEmbedBody.single request_model (texts.headD []))
  else
    (endpoint ++ "/".data ++ path_model ++ ":batchEmbedContents".data,
     GeminiEmbedBody.batch (texts.map (fun t => (request_model, t))))

/-- Single-text response handling of `gemini_embed_texts`: the
"usage only" guard rejects a parsed response without an `embedding`. -/
def gemini_embed_single_result (parsed : GeminiEmbedResponse) :
    Except Str (List (List Int)) :=
  match parsed.embedding with
  | some embedding => Except.ok [embedding.values]
  | none => Except.error "Gemini responded with usage metadata only — no embedding produced".data

/-- Batch response handling of `gemini_embed_texts`: the "usage only"
guard rejects a parsed response without `embeddings`. -/
def gemini_embed_batch_result (parsed : GeminiBatchEmbedResponse) :
    Except Str (List (List Int)) :=
  match parsed.embeddings with
  | some embeddings => Except.ok (embeddings.map (fun e => e.values))
  | none => Except.error "Gemini responded with usage metadata only — no embeddings produced".data

/-- `gemini_embed_texts` (`gemini/api.rs`) after the network stage: the
branch on `texts.len() == 1` selects the single or batch path, each fed
by the outcome of its HTTP + decode stage. -/
def gemini_embed_texts_result (texts : List Str)
    (singleOutcome : Except Str GeminiEmbedResponse)
    (batchOutcome : Except Str GeminiBatchEmbedResponse) :
    Except Str (List (List Int)) :=
  if texts.length = 1 then singleOutcome.bind gemini_embed_single_result
  else batchOutcome.bind gemini_embed_batch_result

/-! ## Dispatcher (`providers/mod.rs`) -/

/-- `get_llm_embedding` (`providers/mod.rs`): the per-provider
embedding closures are abstracted as function parameters (they perform
network calls); the Anthropic arm is the literal `Box::new(|_| Vec::new())`. -/
def get_llm_embedding
    (gemini_embedding openai_embedding : List Str → List (List Int)) :
    LLMProvider → (List Str → List (List Int))
  | LLMProvider.Gemini => gemini_embedding
  | LLMProvider.OpenAI => openai_embedding
  | LLMProvider.Anthropic => fun _ => []

/-! ## Helper lemmas -/

theorem char_toNat_ofNat (n : Nat) (h : n < 55296) : (Char.ofNat n).toNat = n := by
  simp [Char.ofNat, Nat.isValidChar, h, Char.ofNatAux, Char.toNat, UInt32.toNat]

theorem rustCharToLower_fix (c : Char)
    (h : ¬(65 ≤ c.toNat ∧ c.toNat ≤ 90)) : rustCharToLower c = c := by
  unfold rustCharToLower
  exact if_neg h

theorem rustCharToLower_not_upper (c : Char) :
    ¬(65 ≤ (rustCharToLower c).toNat ∧ (rustCharToLower c).toNat ≤ 90) := by
  unfold rustCharToLower
  split
  · next h => rw [char_toNat_ofNat _ (by omega)]; omega
  · next h => exact h

theorem rustCharToLower_idem (c : Char) :
    rustCharToLower (rustCharToLower c) = rustCharToLower c :=
  rustCharToLower_fix _ (rustCharToLower_not_upper c)

theorem isRustWhitespace_rustCharToLower (c : Char) :
    isRustWhitespace (rustCharToLower c) = isRustWhitespace c := by
  unfold rustCharToLower
  split
  · next h =>
    simp only [isRustWhitespace]
    rw [char_toNat_ofNat _ (by omega)]
    have h1 : ¬(c.toNat + 32 ∈ [9, 10, 11, 12, 13, 32, 133, 160, 5760,
        8192, 8193, 8194, 8195, 8196, 8197, 8198, 8199, 8200,
        8201, 8202, 8232, 8233, 8239, 8287, 12288]) := by
      simp only [List.mem_cons, List.not_mem_nil, or_false]
      omega
    have h2 : ¬(c.toNat ∈ [9, 10, 11, 12, 13, 32, 133, 160, 5760,
        8192, 8193, 8194, 8195, 8196, 8197, 8198, 8199, 8200,
        8201, 8202, 8232, 8233, 8239, 8287, 12288]) := by
      simp only [List.mem_cons, List.not_mem_nil, or_false]
      omega
    simp [h1, h2]
  · rfl

theorem rustToLower_idem (s : Str) : rustToLower (rustToLower s) = rustToLower s := by
  unfold rustToLower
  rw [List.map_map]
  exact List.map_congr_left (fun c _ => rustCharToLower_idem c)

theorem rustTrim_rustToLower (s : Str) :
    rustTrim (rustToLower s) = rustToLower (rustTrim s) := by
  have hpf : isRustWhitespace ∘ rustCharToLower = isRustWhitespace :=
    funext isRustWhitespace_rustCharToLower
  unfold rustTrim rustToLower
  simp only [List.dropWhile_map, hpf, ← List.map_reverse]

/-- The fixed role synonym table of `LLMUserType::from_str`. -/
def role_synonyms : List Str :=
  ["user".data, "human".data, "model".data, "ai".data, "assistant".data, "system".data]

/-- C6: role canonicalization is deterministic (it is a function of the
trimmed, lowercased input: lowercasing the input first never changes the
result), strings whose canonical key is in the synonym table map to the
corresponding canonical role, and every string outside the table
resolves to `Human` when a message is constructed via `LLMMessage::new`. -/
theorem role_canonicalization :
    (∀ s : Str, LLMUserType.from_str (rustToLower s) = LLMUserType.from_str s) ∧
    (∀ s : Str, rustToLower (rustTrim s) = "user".data ∨ rustToLower (rustTrim s) = "human".data →
      LLMUserType.from_str s = some LLMUserType.Human) ∧
    (∀ s : Str, rustToLower (rustTrim s) = "model".data ∨ rustToLower (rustTrim s) = "ai".data ∨
        rustToLower (rustTrim s) = "assistant".data →
      LLMUserType.from_str s = some LLMUserType.AI) ∧
    (∀ s : Str, rustToLower (rustTrim s) = "system".data →
      LLMUserType.from_str s = some LLMUserType.System) ∧
    (∀ s : Str, rustToLower (rustTrim s) ∉ role_synonyms →
      ∀ (now : Nat) (id : Option Str) (content : List LLMMessageType),
        (LLMMessage.new now id s content).role = LLMUserType.Human) := by
  refine ⟨?_, ?_, ?_, ?_, ?_⟩
  · intro s
    unfold LLMUserType.from_str
    rw [rustTrim_rustToLower, rustToLower_idem]
  · intro s h
    unfold LLMUserType.from_str
    simp only [if_pos h]
  · intro s h
    have hne : ¬(rustToLower (rustTrim s) = "user".data ∨ rustToLower (rustTrim s) = "human".data) := by
      rcases h with h | h | h <;> rw [h] <;> decide
    unfold LLMUserType.from_str
    simp only [if_neg hne, if_pos h]
  · intro s h
    have hne1 : ¬(rustToLower (rustTrim s) = "user".data ∨ rustToLower (rustTrim s) = "human".data) := by
      rw [h]; decide
    have hne2 : ¬(rustToLower (rustTrim s) = "model".data ∨ rustToLower (rustTrim s) = "ai".data ∨
        rustToLower (rustTrim s) = "assistant".data) := by
      rw [h]; decide
    unfold LLMUserType.from_str
    simp only [if_neg hne1, if_neg hne2, if_pos h]
  · intro s h now id content
    simp only [role_synonyms, List.mem_cons, List.not_mem_nil, or_false, not_or] at h
    obtain ⟨h1, h2, h3, h4, h5, h6⟩ := h
    simp only [LLMMessage.new, LLMUserType.from_str]
    rw [if_neg (by tauto), if_neg (by tauto), if_neg h6]
    rfl

/-- Witness for `role_canonicalization`: `"  ASSISTANT "` canonicalizes
to `AI`, and an unknown role string resolves to `Human`. -/
theorem role_canonicalization_witness :
    (rustToLower (rustTrim "  ASSISTANT ".data) = "assistant".data ∧
      LLMUserType.from_str "  ASSISTANT ".data = some LLMUserType.AI) ∧
    (rustToLower (rustTrim "tool".data) ∉ role_synonyms ∧
      (LLMMessage.new 0 none "tool".data []).role = LLMUserType.Human) :=
  ⟨⟨by decide, role_canonicalization.2.2.1 "  ASSISTANT ".data (Or.inr (Or.inr (by decide)))⟩,
   ⟨by decide, role_canonicalization.2.2.2.2 "tool".data (by decide) 0 none []⟩⟩

/-- C4: for the Anthropic adapter, `[System("a"), System("b"), Human("hi")]`
converts to the wire payload with top-level `system = "a\nb"` and a
single `user` turn whose content is one text part `"hi"`. The mime
guesser is irrelevant here (no image parts), so the statement holds for
every guesser. -/
theorem anthropic_system_extraction_example (mimeGuess : Str → Option Str) :
    convert_messages_to_anthropic mimeGuess
      [ { id := [], role := LLMUserType.System, content := [LLMMessageType.TEXT "a".data], created_at := 0 },
        { id := [], role := LLMUserType.System, content := [LLMMessageType.TEXT "b".data], created_at := 0 },
        { id := [], role := LLMUserType.Human, content := [LLMMessageType.TEXT "hi".data], created_at := 0 } ]
    = ([ { role := "user".data, content := [AnthropicWirePart.text "hi".data] } ],
       some "a\nb".data) := rfl

/-- C9: the dispatcher's embedding function for the unsupported
Anthropic provider is a no-op: whatever the (abstracted, effectful)
Gemini and OpenAI embedding closures are, and whatever the input list
is, it returns the empty result and cannot fail (it is a total
function). -/
theorem anthropic_embedding_noop
    (gemini_embedding openai_embedding : List Str → List (List Int))
    (input : List Str) :
    get_llm_embedding gemini_embedding openai_embedding LLMProvider.Anthropic input = [] := rfl

/-- C10: every message produced by any of the three chat adapters'
response paths — success or failure, for every outcome of the HTTP +
decode stage — has a non-empty content list. -/
theorem adapter_content_nonempty (now : Nat)
    (o1 : Except Str ChatCompletionResponse)
    (o2 : Except Str AnthropicResponse)
    (o3 : Except Str GeminiResponse) :
    (openai_chat_result now o1).content ≠ [] ∧
    (anthropic_chat_result now o2).content ≠ [] ∧
    (gemini_chat_result now o3).content ≠ [] := by
  refine ⟨?_, ?_, ?_⟩
  · cases o1 with
    | error e => simp [openai_chat_result, send_chat_completion_result, Except.bind, LLMMessage.new]
    | ok resp =>
      cases hc : resp.choices with
      | nil =>
        simp [openai_chat_result, send_chat_completion_result, Except.bind,
          convert_openai_response, hc, LLMMessage.new]
      | cons first rest =>
        simp only [openai_chat_result, send_chat_completion_result, Except.bind,
          convert_openai_response, hc, LLMMessage.new]
        split
        · next h => simp [h]
        · next h => simp [h]
  · cases o2 with
    | error e => simp [anthropic_chat_result, send_message_result, Except.bind, LLMMessage.new]
    | ok resp =>
      simp only [anthropic_chat_result, send_message_result, Except.bind,
        convert_anthropic_response, LLMMessage.new]
      split
      · next h => simp [h]
      · next h => simp [h]
  · cases o3 with
    | error e => simp [gemini_chat_result, LLMMessage.new]
    | ok resp => simp [gemini_chat_result, LLMMessage.new]

/-- C2 counterexample: for the Gemini chat adapter, a message with an
empty content list produces a wire message whose `parts` field is the
empty array — not one empty Text part. (The claim asserts all three
adapters emit exactly one empty Text part and never an empty array.) -/
theorem gemini_empty_content_empty_array :
    convert_messages_to_gemini_contents (fun _ => none)
      [ { id := [], role := LLMUserType.Human, content := [], created_at := 0 } ]
      = [ { role := "user".data, parts := [] } ] ∧
    convert_body_parts_gemini (fun _ => none) [] ≠ [GeminiWirePart.text []] := by
  constructor
  · rfl
  · decide

/-- C2 amended: for a message with an empty content list, the Anthropic
request constructor produces exactly one empty Text part; the OpenAI
request constructor serializes the content as the empty JSON string
(its dedicated empty branch — a string, not a part array and not a
Text part object); and the Gemini request constructor produces an
empty parts array. -/
theorem empty_content_wire_fallback (mimeGuess : Str → Option Str)
    (m : LLMMessage) (h : m.content = []) :
    convert_message_content_to_anthropic mimeGuess m.content = [AnthropicWirePart.text []] ∧
    (convert_message mimeGuess m).content = OpenAIWireContent.str [] ∧
    convert_body_parts_gemini mimeGuess m.content = [] := by
  rw [h]
  refine ⟨rfl, ?_, rfl⟩
  simp [convert_message, h]

/-- Witness for `empty_content_wire_fallback` at a concrete message. -/
theorem empty_content_wire_fallback_witness :
    ({ id := [], role := LLMUserType.AI, content := [], created_at := 0 } : LLMMessage).content = [] ∧
    convert_message_content_to_anthropic (fun _ => none)
      ({ id := [], role := LLMUserType.AI, content := [], created_at := 0 } : LLMMessage).content
      = [AnthropicWirePart.text []] ∧
    (convert_message (fun _ => none)
      { id := [], role := LLMUserType.AI, content := [], created_at := 0 }).content
      = OpenAIWireContent.str [] ∧
    convert_body_parts_gemini (fun _ => none)
      ({ id := [], role := LLMUserType.AI, content := [], created_at := 0 } : LLMMessage).content = [] :=
  ⟨rfl, empty_content_wire_fallback (fun _ => none) _ rfl⟩

/-- C1 counterexample: for the Gemini adapter, the missing-candidate
failure (a successfully decoded response whose `candidates` list is
empty — `response_to_text_data` fails with "No candidates found") does
NOT produce a System-role error message: the wrapped chat function
returns a normal AI-role message with one empty Text part. -/
theorem gemini_missing_candidate_yields_ai_message :
    (gemini_chat_result 0 (Except.ok { candidates := [], response_id := some "r".data })).role
      = LLMUserType.AI ∧
    (gemini_chat_result 0 (Except.ok { candidates := [], response_id := some "r".data })).content
      = [LLMMessageType.TEXT []] ∧
    ¬(gemini_chat_result 0 (Except.ok { candidates := [], response_id := some "r".data })).role
      = LLMUserType.System := by
  refine ⟨rfl, rfl, ?_⟩
  decide

/-- C1 amended: every wrapped chat function is total (always resolves
to a message). On a transport / non-2xx / decode failure each adapter
returns a single System-role message: OpenAI and Anthropic embed the
error description (`"OpenAI error: {err}"`, `"Anthropic error: {err}"`),
while Gemini returns the fixed text `"Failed to get response from
Gemini"` without the underlying error description. OpenAI's
missing-choice failure also yields such a System message; Gemini's
missing-candidate case instead yields a normal AI-role message with one
empty Text part (the error is swallowed). -/
theorem chat_wrapper_failure_contract (now : Nat) (e : Str) :
    (openai_chat_result now (Except.error e)).role = LLMUserType.System ∧
    (openai_chat_result now (Except.error e)).content
      = [LLMMessageType.TEXT ("OpenAI error: ".data ++ e)] ∧
    (anthropic_chat_result now (Except.error e)).role = LLMUserType.System ∧
    (anthropic_chat_result now (Except.error e)).content
      = [LLMMessageType.TEXT ("Anthropic error: ".data ++ e)] ∧
    (gemini_chat_result now (Except.error e)).role = LLMUserType.System ∧
    (gemini_chat_result now (Except.error e)).content
      = [LLMMessageType.TEXT "Failed to get response from Gemini".data] ∧
    (∀ resp : ChatCompletionResponse, resp.choices = [] →
      (openai_chat_result now (Except.ok resp)).role = LLMUserType.System ∧
      (openai_chat_result now (Except.ok resp)).content
        = [LLMMessageType.TEXT "OpenAI error: No choices returned from OpenAI".data]) ∧
    (∀ resp : GeminiResponse, resp.candidates = [] →
      (gemini_chat_result now (Except.ok resp)).role = LLMUserType.AI ∧
      (gemini_chat_result now (Except.ok resp)).content = [LLMMessageType.TEXT []]) := by
  refine ⟨rfl, rfl, rfl, rfl, rfl, rfl, ?_, ?_⟩
  · intro resp h
    simp [openai_chat_result, send_chat_completion_result, Except.bind,
      convert_openai_response, h, LLMMessage.new, LLMMessageType.textPart]
    decide
  · intro resp h
    simp [gemini_chat_result, response_to_base64_images, response_to_text_data, h,
      LLMMessage.new, LLMMessageType.textPart, LLMMessageType.image_b64]
    decide

/-- Witness for `chat_wrapper_failure_contract` at concrete inputs. -/
theorem chat_wrapper_failure_contract_witness :
    (openai_chat_result 7 (Except.error "boom".data)).role = LLMUserType.System ∧
    (⟨none, []⟩ : ChatCompletionResponse).choices = [] ∧
    (openai_chat_result 7 (Except.ok ⟨none, []⟩)).content
      = [LLMMessageType.TEXT "OpenAI error: No choices returned from OpenAI".data] ∧
    (⟨[], none⟩ : GeminiResponse).candidates = [] ∧
    (gemini_chat_result 7 (Except.ok ⟨[], none⟩)).role = LLMUserType.AI :=
  ⟨(chat_wrapper_failure_contract 7 "boom".data).1,
   rfl,
   ((chat_wrapper_failure_contract 7 "boom".data).2.2.2.2.2.2.1 ⟨none, []⟩ rfl).2,
   rfl,
   ((chat_wrapper_failure_contract 7 "boom".data).2.2.2.2.2.2.2 ⟨[], none⟩ rfl).1⟩

/-- The concrete two-candidate Gemini response used to test image
collection: text in the first candidate, an inline image only in the
second. -/
def geminiTwoCandidateResp : GeminiResponse where
  candidates :=
    [ { content :=
          { parts := [{ text := some "t".data, inline_data := none }]
            role := none }
        finish_reason := none
        index := none },
      { content :=
          { parts :=
              [{ text := none
                 inline_data := some { mime_type := "image/png".data, data := "IMG".data } }]
            role := none }
        finish_reason := none
        index := none } ]
  response_id := none

/-- C3 counterexample: a Gemini response with two candidates, where the
inline image sits only in the SECOND candidate, still contributes that
image to the result message — the adapter collects inline data from all
candidates, not from the first candidate only; a first-candidate-only
collection would give `[TEXT "t"]` here. -/
theorem gemini_images_from_second_candidate :
    (gemini_chat_result 0 (Except.ok geminiTwoCandidateResp)).content
      = [LLMMessageType.IMAGE "IMG".data none, LLMMessageType.TEXT "t".data] ∧
    ¬(gemini_chat_result 0 (Except.ok geminiTwoCandidateResp)).content
      = [LLMMessageType.TEXT "t".data] := by
  refine ⟨rfl, ?_⟩
  decide

theorem gemini_images_characterization (ps : List GeminiPart) :
    (ps.map (fun part =>
        match part.inline_data with
        | some inline_data => inline_data.data
        | none => [])).filter (fun data => !data.isEmpty)
      = (ps.filterMap (fun p => p.inline_data.map InlineData.data)).filter
          (fun data => !data.isEmpty) := by
  induction ps with
  | nil => rfl
  | cons p rest ih =>
    cases h : p.inline_data with
    | none => simpa [h, List.filter] using ih
    | some d => simp [h, List.filter, ih]

theorem gemini_text_characterization (ps : List GeminiPart) (acc : Str) :
    ps.foldl (fun full_text part =>
        match part.text with
        | some text => full_text ++ text
        | none => full_text) acc
      = ps.foldl (fun full_text part => full_text ++ part.text.getD []) acc := by
  induction ps generalizing acc with
  | nil => rfl
  | cons p rest ih =>
    cases h : p.text with
    | none => simp [h, ih]
    | some t => simp [h, ih]

/-- C3 amended: on a decoded Gemini response, the result message is an
AI-role message whose content is the inline image data collected from
the parts of ALL candidates in order (each a leading Image part,
non-empty data only), followed by one single Text part concatenating
the texts of the FIRST candidate's parts; a response with no candidates
yields that same AI-role message with one empty Text part (the
"No candidates found" error is swallowed), not an error surfaced to the
caller. -/
theorem gemini_chat_success_shape (now : Nat) (resp : GeminiResponse) :
    (gemini_chat_result now (Except.ok resp)).role = LLMUserType.AI ∧
    (gemini_chat_result now (Except.ok resp)).content =
      ((resp.candidates.map (fun c =>
          (c.content.parts.filterMap (fun p => p.inline_data.map InlineData.data)).filter
            (fun data => !data.isEmpty))).flatten).map (fun d => LLMMessageType.IMAGE d none)
      ++ [LLMMessageType.TEXT
            (match resp.candidates with
             | [] => []
             | c :: _ => c.content.parts.foldl (fun full_text part =>
                 full_text ++ part.text.getD []) [])] := by
  constructor
  · simp [gemini_chat_result, LLMMessage.new]
    decide
  · simp only [gemini_chat_result, LLMMessage.new, LLMMessageType.image_b64,
      LLMMessageType.textPart, response_to_base64_images]
    congr 1
    · congr 1
      congr 1
      exact List.map_congr_left (fun c _ => gemini_images_characterization c.content.parts)
    · cases hc : resp.candidates with
      | nil => simp [response_to_text_data, hc, Except.toOption]
      | cons c rest =>
        simp only [response_to_text_data, hc, Except.toOption, Option.getD]
        exact congrArg (fun t => [LLMMessageType.TEXT t])
          (gemini_text_characterization c.content.parts [])

/-- C7 counterexample: a default model id that already starts with a
doubled `"models/"` prefix is carried into the request body unchanged,
so the model id in the body starts with `"models/"` twice, not exactly
once. -/
theorem gemini_request_model_double_retained :
    (gemini_embed_request "https://e".data "models/models/m".data ["t".data]).2
      = GeminiEmbedBody.single "models/models/m".data "t".data ∧
    ("models/".data ++ "models/".data).isPrefixOf
      "models/models/m".data = true := by
  constructor
  · rfl
  · decide

/-- C7 amended: a single-element input list is sent to the
`{model}:embedContent` endpoint and any other input list (two or more
texts, and also the empty list) to `{model}:batchEmbedContents`; the
model id carried in the request body starts with the `"models/"` prefix
— added when absent and left unchanged when present, so an id that
already carries a repeated prefix keeps the repetition. -/
theorem gemini_embed_endpoint_selection (endpoint model_id : Str) (texts : List Str) :
    (texts.length = 1 →
      gemini_embed_request endpoint model_id texts
        = (rustTrimEndSlashes endpoint ++ "/".data ++ gemini_path_model model_id
            ++ ":embedContent".data,
           GeminiEmbedBody.single (gemini_request_model model_id) (texts.headD []))) ∧
    (texts.length ≠ 1 →
      gemini_embed_request endpoint model_id texts
        = (rustTrimEndSlashes endpoint ++ "/".data ++ gemini_path_model model_id
            ++ ":batchEmbedContents".data,
           GeminiEmbedBody.batch (texts.map (fun t => (gemini_request_model model_id, t))))) ∧
    "models/".data.isPrefixOf (gemini_request_model model_id) = true ∧
    ("models/".data.isPrefixOf model_id = true →
      gemini_request_model model_id = model_id) ∧
    (¬"models/".data.isPrefixOf model_id = true →
      gemini_request_model model_id = "models/".data ++ model_id) := by
  refine ⟨?_, ?_, ?_, ?_, ?_⟩
  · intro h
    simp [gemini_embed_request, h]
  · intro h
    simp [gemini_embed_request, h]
  · unfold gemini_request_model
    split
    · next h => exact h
    · next h =>
      exact List.isPrefixOf_iff_prefix.mpr (List.prefix_append "models/".data model_id)
  · intro h
    unfold gemini_request_model
    simp [h]
  · intro h
    unfold gemini_request_model
    simp [h]

/-- Witness for `gemini_embed_endpoint_selection` at concrete inputs:
one text selects `embedContent`, two texts select `batchEmbedContents`,
and the bare model id gains the prefix. -/
theorem gemini_embed_endpoint_selection_witness :
    (["a".data] : List Str).length = 1 ∧
    gemini_embed_request "https://e/".data "m".data ["a".data]
      = ("https://e/m:embedContent".data,
         GeminiEmbedBody.single "models/m".data "a".data) ∧
    (["a".data, "b".data] : List Str).length ≠ 1 ∧
    gemini_embed_request "https://e/".data "m".data ["a".data, "b".data]
      = ("https://e/m:batchEmbedContents".data,
         GeminiEmbedBody.batch [("models/m".data, "a".data), ("models/m".data, "b".data)]) := by
  refine ⟨rfl, ?_, by decide, ?_⟩
  · rw [(gemini_embed_endpoint_selection "https://e/".data "m".data ["a".data]).1 rfl]
    simp only [gemini_path_model]
    rw [rustTrimStartMatches, rustTrimStartMatches]
    decide
  · rw [(gemini_embed_endpoint_selection "https://e/".data "m".data
      ["a".data, "b".data]).2.1 (by decide)]
    simp only [gemini_path_model]
    rw [rustTrimStartMatches, rustTrimStartMatches]
    decide

/-- C8: a Gemini embedding response that decodes successfully but has
no `embedding` (single path) / `embeddings` (batch path) field — a
usage-metadata-only response — makes the embedding call return a
failure, never a success with zero vectors. -/
theorem gemini_usage_only_guard (texts : List Str)
    (r1 : GeminiEmbedResponse) (r2 : GeminiBatchEmbedResponse)
    (h1 : r1.embedding = none) (h2 : r2.embeddings = none) :
    gemini_embed_texts_result texts (Except.ok r1) (Except.ok r2)
      = Except.error
          (if texts.length = 1 then
            "Gemini responded with usage metadata only — no embedding produced".data
          else
            "Gemini responded with usage metadata only — no embeddings produced".data) := by
  unfold gemini_embed_texts_result
  split
  · next h =>
    simp [h, Except.bind, gemini_embed_single_result, h1]
  · next h =>
    simp [h, Except.bind, gemini_embed_batch_result, h2]

/-- Witness for `gemini_usage_only_guard`: one text with a
usage-metadata-only response produces the single-path failure. -/
theorem gemini_usage_only_guard_witness :
    ({ embedding := none } : GeminiEmbedResponse).embedding = none ∧
    ({ embeddings := none } : GeminiBatchEmbedResponse).embeddings = none ∧
    gemini_embed_texts_result ["a".data] (Except.ok { embedding := none })
        (Except.ok { embeddings := none })
      = Except.error
          "Gemini responded with usage metadata only — no embedding produced".data :=
  ⟨rfl, rfl, by
    rw [gemini_usage_only_guard ["a".data] { embedding := none } { embeddings := none } rfl rfl]
    rfl⟩

/-! ## C5: OpenAI serialization and round-trip -/

/-- Forget an image part's source path (the response parser always
rebuilds images via `image_b64`, i.e. with `file_path = None`; text
parts are unchanged). -/
def erase_image_source : LLMMessageType → LLMMessageType
  | LLMMessageType.TEXT t => LLMMessageType.TEXT t
  | LLMMessageType.IMAGE d _ => LLMMessageType.IMAGE d none

/-- The wire part emitted for one content part by the loop body of
`convert_message`. -/
def openai_encode_part (mimeGuess : Str → Option Str) : LLMMessageType → OpenAIWirePart
  | LLMMessageType.TEXT t => OpenAIWirePart.text t
  | LLMMessageType.IMAGE data_b64 file_path =>
      let mime := (file_path.map (detect_mime_type mimeGuess)).getD "image/png".data
      OpenAIWirePart.image ("data:".data ++ mime ++ ";base64,".data ++ data_b64)

/-- The texts of the TEXT parts of a content list, in order. -/
def openai_part_texts (l : List LLMMessageType) : List Str :=
  l.filterMap (fun p =>
    match p with
    | LLMMessageType.TEXT t => some t
    | LLMMessageType.IMAGE _ _ => none)

/-- Whether every part of a content list is a TEXT part. -/
def openai_all_text (l : List LLMMessageType) : Bool :=
  l.all (fun p =>
    match p with
    | LLMMessageType.TEXT _ => true
    | LLMMessageType.IMAGE _ _ => false)

theorem openaiConv_foldl (mimeGuess : Str → Option Str)
    (l : List LLMMessageType) (acc : OpenAIConvState) :
    l.foldl (openaiConvStep mimeGuess) acc =
      { content_items := acc.content_items ++ l.map (openai_encode_part mimeGuess)
        text_segments := acc.text_segments ++ openai_part_texts l
        only_text := acc.only_text && openai_all_text l } := by
  induction l generalizing acc with
  | nil =>
    cases acc
    simp [openai_part_texts, openai_all_text]
  | cons x xs ih =>
    cases x with
    | TEXT t =>
      simp only [List.foldl_cons, openaiConvStep, ih]
      simp [openai_encode_part, openai_part_texts, openai_all_text]
    | IMAGE d fp =>
      simp only [List.foldl_cons, openaiConvStep, ih]
      simp [openai_encode_part, openai_part_texts, openai_all_text]

/-- `serde` deserialization of the two JSON part shapes that
`convert_message` emits, into the `ChatContentPart` response model:
`{"type":"text","text":t}` fills `kind` and `text`;
`{"type":"input_image","image_url":{"url":u}}` fills `kind` and
`image_url`; all other fields are absent. -/
def wire_part_decode : OpenAIWirePart → ChatContentPart
  | OpenAIWirePart.text t =>
      { kind := "text".data, text := some t, image_url := none, image_base64 := none }
  | OpenAIWirePart.image url =>
      { kind := "input_image".data, text := none,
        image_url := some { url := url }, image_base64 := none }

theorem extract_data_url_base64_append (a b : Str) (ha : ∀ c ∈ a, c ≠ ',') :
    extract_data_url_base64 (a ++ b) = extract_data_url_base64 b := by
  induction a with
  | nil => rfl
  | cons c rest ih =>
    have hc : c ≠ ',' := ha c (List.mem_cons_self c rest)
    simp only [List.cons_append, extract_data_url_base64, if_neg hc]
    exact ih (fun x hx => ha x (List.mem_cons_of_mem c hx))

theorem openaiPartStep_append (acc : List LLMMessageType) (part : ChatContentPart) :
    openaiPartStep acc part = acc ++ openaiPartStep [] part := by
  unfold openaiPartStep
  repeat' split
  all_goals (try rfl)
  all_goals simp

theorem convert_openai_parts_cons (p : ChatContentPart) (ps : List ChatContentPart) :
    convert_openai_parts (p :: ps) = openaiPartStep [] p ++ convert_openai_parts ps := by
  show List.foldl openaiPartStep (openaiPartStep [] p) ps = _
  have key : ∀ (l : List ChatContentPart) (acc : List LLMMessageType),
      List.foldl openaiPartStep acc l = acc ++ List.foldl openaiPartStep [] l := by
    intro l
    induction l with
    | nil => simp
    | cons q qs ih =>
      intro acc
      simp only [List.foldl_cons]
      rw [ih (openaiPartStep acc q), openaiPartStep_append acc q, ih (openaiPartStep [] q)]
      simp
  exact key ps (openaiPartStep [] p)

theorem openai_decode_encode (mimeGuess : Str → Option Str)
    (hm : ∀ p, ¬ ',' ∈ detect_mime_type mimeGuess p) (part : LLMMessageType) :
    openaiPartStep [] (wire_part_decode (openai_encode_part mimeGuess part))
      = [erase_image_source part] := by
  cases part with
  | TEXT t => rfl
  | IMAGE d fp =>
    simp only [openai_encode_part, wire_part_decode, openaiPartStep]
    rw [if_neg (by decide), if_pos (by decide)]
    have hmime : ∀ c ∈ (fp.map (detect_mime_type mimeGuess)).getD "image/png".data, c ≠ ',' := by
      cases fp with
      | none =>
        intro c hc heq
        subst heq
        have hmem : ',' ∈ "image/png".data := by simpa using hc
        revert hmem
        decide
      | some p =>
        intro c hc heq
        subst heq
        exact hm p (by simpa using hc)
    have h1 : ∀ c ∈ "data:".data ++ (fp.map (detect_mime_type mimeGuess)).getD "image/png".data,
        c ≠ ',' := by
      intro c hc
      rcases List.mem_append.mp hc with h | h
      · intro heq
        subst heq
        revert h
        decide
      · exact hmime c h
    rw [show ("data:".data ++ ((fp.map (detect_mime_type mimeGuess)).getD "image/png".data)
          ++ ";base64,".data ++ d)
        = ("data:".data ++ ((fp.map (detect_mime_type mimeGuess)).getD "image/png".data))
          ++ (";base64,".data ++ d) by simp]
    rw [extract_data_url_base64_append _ _ h1]
    rfl

theorem openai_roundtrip_list (mimeGuess : Str → Option Str)
    (hm : ∀ p, ¬ ',' ∈ detect_mime_type mimeGuess p) (l : List LLMMessageType) :
    convert_openai_parts ((l.map (openai_encode_part mimeGuess)).map wire_part_decode)
      = l.map erase_image_source := by
  induction l with
  | nil => rfl
  | cons x xs ih =>
    simp only [List.map_cons]
    rw [convert_openai_parts_cons, openai_decode_encode mimeGuess hm x, ih]
    rfl

/-- C5: for the OpenAI adapter (assuming the mime guesser never emits a
comma, true of real media types), a message whose parts are all Text
serializes its content as a single string joining the texts with
newlines; a message containing at least one Image part serializes its
content as the part array obtained by encoding each part; and feeding
that same part array (as deserialized by serde) back through the
response-part parser `convert_openai_parts` returns the original
Text/Image sequence, with each image's base64 data preserved and its
source path dropped (mime defaulted on the wire when absent). -/
theorem openai_content_serialization_roundtrip (mimeGuess : Str → Option Str)
    (hm : ∀ p, ¬ ',' ∈ detect_mime_type mimeGuess p) (m : LLMMessage) :
    (openai_all_text m.content = true →
      (convert_message mimeGuess m).content
        = OpenAIWireContent.str (List.intercalate "\n".data (openai_part_texts m.content))) ∧
    ((∃ d fp, LLMMessageType.IMAGE d fp ∈ m.content) →
      (convert_message mimeGuess m).content
        = OpenAIWireContent.parts (m.content.map (openai_encode_part mimeGuess)) ∧
      convert_openai_parts
          ((m.content.map (openai_encode_part mimeGuess)).map wire_part_decode)
        = m.content.map erase_image_source) := by
  constructor
  · intro hall
    unfold convert_message
    rw [openaiConv_foldl]
    simp only [List.nil_append, Bool.true_and, hall]
    split
    · next hnil =>
      rw [List.map_eq_nil_iff.mp hnil]
      rfl
    · next hnil => rfl
  · rintro ⟨d, fp, hmem⟩
    have hall : openai_all_text m.content = false := by
      unfold openai_all_text
      rw [List.all_eq_false]
      exact ⟨_, hmem, by simp⟩
    have hne : m.content.map (openai_encode_part mimeGuess) ≠ [] := by
      simp only [ne_eq, List.map_eq_nil_iff]
      exact List.ne_nil_of_mem hmem
    refine ⟨?_, openai_roundtrip_list mimeGuess hm m.content⟩
    unfold convert_message
    rw [openaiConv_foldl]
    simp only [List.nil_append, Bool.true_and, hall]
    rw [if_neg hne]
    rfl

/-- Concrete message exercising the C5 round-trip: one text part and
one pathless image part. -/
def openaiRoundtripMsg : LLMMessage where
  id := []
  role := LLMUserType.Human
  content := [LLMMessageType.TEXT "t".data, LLMMessageType.IMAGE "D".data none]
  created_at := 0

/-- Witness for `openai_content_serialization_roundtrip` at a concrete
message with an image part and the trivial mime guesser. -/
theorem openai_content_serialization_roundtrip_witness :
    LLMMessageType.IMAGE "D".data none ∈ openaiRoundtripMsg.content ∧
    (convert_message (fun _ => none) openaiRoundtripMsg).content
      = OpenAIWireContent.parts
          (openaiRoundtripMsg.content.map (openai_encode_part (fun _ => none))) ∧
    convert_openai_parts
        ((openaiRoundtripMsg.content.map (openai_encode_part (fun _ => none))).map
          wire_part_decode)
      = openaiRoundtripMsg.content.map erase_image_source := by
  have h := (openai_content_serialization_roundtrip (fun _ => none)
    (fun p => (by decide : ¬ ',' ∈ "image/jpeg".data)) openaiRoundtripMsg).2
    ⟨"D".data, none, by decide⟩
  exact ⟨by decide, h.1, h.2⟩
